import Mathlib

/-!
Verification development for the docker-image-trans repository.

The repository converts a container-image reference from one registry
namespace to another: it parses the reference (`parse_image_name` in
`src/main.py`), rebuilds the minimal source reference
(`build_source_image_name`) and the fully explicit target reference
(`build_target_image_name`), then runs a pull → tag → push pipeline
(`process_docker_image`) over the docker engine facade
(`docker_manager.py`), broadcasting progress to websocket observers
(`notify_progress`).

This file gives a shallow embedding of that code, faithful to the Python
in `src/src/main.py` and `src/src/docker_manager.py`, and proves (or
refutes) the specification claims about it.
-/

namespace DockerTrans

/-- The structured result of `parse_image_name`: the Python function returns
the tuple `(registry, bucket, name, tag)`. -/
structure ImageReference where
  registry : String
  bucket : String
  name : String
  tag : String
deriving DecidableEq, Repr

/-- The parse failure of `parse_image_name`: the only `raise` in the function
is `ValueError(f"不支持的镜像名称格式: {image_name}")` for 4+ path segments.
There is no other error constructor in the code. -/
inductive ParseError where
  | unsupportedFormat (raw : String)
deriving DecidableEq, Repr

/-- The message carried by the raised `ValueError`. -/
def parseErrorMessage : ParseError → String
  | .unsupportedFormat raw => "不支持的镜像名称格式: " ++ raw

instance {ε α : Type} [DecidableEq ε] [DecidableEq α] : DecidableEq (Except ε α) := fun a b =>
  match a, b with
  | .ok x, .ok y =>
    if h : x = y then .isTrue (congrArg Except.ok h)
    else .isFalse (fun hh => h (Except.ok.inj hh))
  | .error x, .error y =>
    if h : x = y then .isTrue (congrArg Except.error h)
    else .isFalse (fun hh => h (Except.error.inj hh))
  | .ok _, .error _ => .isFalse (fun hh => Except.noConfusion hh)
  | .error _, .ok _ => .isFalse (fun hh => Except.noConfusion hh)

/-- Whether a character is not the colon separator. -/
def notColon (c : Char) : Bool := c ≠ ':'

/-- Python `image_name.rsplit(':', 1)` when `':' in image_name`:
split at the LAST colon.  Modelled by reversing and splitting at the first
colon of the reversed list. -/
def rsplitLastColon (cs : List Char) : List Char × List Char :=
  let r := cs.reverse
  (((r.dropWhile notColon).drop 1).reverse, (r.takeWhile notColon).reverse)

/-- `parse_image_name` from `src/src/main.py` (lines 46-86).

```python
if ':' in image_name:
    name_part, tag = image_name.rsplit(':', 1)
else:
    name_part = image_name
    tag = "latest"
parts = name_part.split('/')
if len(parts) == 1:
    return "docker.io", "library", parts[0], tag
elif len(parts) == 2:
    if parts[0] == "library":
        return "docker.io", "library", parts[1], tag
    else:
        return parts[0], "library", parts[1], tag
elif len(parts) == 3:
    return parts[0], parts[1], parts[2], tag
else:
    raise ValueError(...)
```
-/
def parse_image_name (image_name : String) : Except ParseError ImageReference :=
  let cs := image_name.toList
  let split := if cs.contains ':' then rsplitLastColon cs else (cs, "latest".toList)
  let parts := split.1.splitOn '/'
  match parts with
  | [n] => .ok ⟨"docker.io", "library", n.asString, split.2.asString⟩
  | [p0, p1] =>
    if p0 = "library".toList then
      .ok ⟨"docker.io", "library", p1.asString, split.2.asString⟩
    else
      .ok ⟨p0.asString, "library", p1.asString, split.2.asString⟩
  | [p0, p1, p2] => .ok ⟨p0.asString, p1.asString, p2.asString, split.2.asString⟩
  | _ => .error (.unsupportedFormat image_name)

/-- `build_source_image_name` from `src/src/main.py` (lines 88-97). -/
def build_source_image_name (registry bucket name tag : String) : String :=
  if registry = "docker.io" ∧ bucket = "library" then
    name ++ ":" ++ tag
  else if bucket = "library" then
    registry ++ "/" ++ name ++ ":" ++ tag
  else
    registry ++ "/" ++ bucket ++ "/" ++ name ++ ":" ++ tag

/-- `build_target_image_name` from `src/src/main.py` (lines 99-105);
`if not bucket or bucket == "library"` is `bucket = "" ∨ bucket = "library"`. -/
def build_target_image_name (new_domain bucket name tag : String) : String :=
  if bucket = "" ∨ bucket = "library" then
    new_domain ++ "/library/" ++ name ++ ":" ++ tag
  else
    new_domain ++ "/" ++ bucket ++ "/" ++ name ++ ":" ++ tag

/-- Spec-side tag splitting, written from the specification's words: the tag
is split off "at the last colon".  Forward recursion that prefers a split
found in the tail, so the split is at the last colon; `none` when the string
has no colon. -/
def lastColonSplit : List Char → Option (List Char × List Char)
  | [] => none
  | c :: cs =>
    match lastColonSplit cs with
    | some p => some (c :: p.1, p.2)
    | none => if c = ':' then some ([], cs) else none

/-- Spec-side parser, written from the claim's words: split off the tag at
the last colon (default "latest"), split the remainder on '/', then dispatch
on the segment count: 1 segment → default hub and "library"; 2 segments →
"library" shortcut or registry; 3 segments → positional; otherwise an
UnsupportedFormat error. -/
def parseSpec (image_name : String) : Except ParseError ImageReference :=
  let cs := image_name.toList
  let split :=
    match lastColonSplit cs with
    | some p => p
    | none => (cs, "latest".toList)
  let parts := split.1.splitOn '/'
  if parts.length = 1 then
    .ok ⟨"docker.io", "library", (parts.getD 0 []).asString, split.2.asString⟩
  else if parts.length = 2 then
    if parts.getD 0 [] = "library".toList then
      .ok ⟨"docker.io", "library", (parts.getD 1 []).asString, split.2.asString⟩
    else
      .ok ⟨(parts.getD 0 []).asString, "library", (parts.getD 1 []).asString, split.2.asString⟩
  else if parts.length = 3 then
    .ok ⟨(parts.getD 0 []).asString, (parts.getD 1 []).asString, (parts.getD 2 []).asString,
      split.2.asString⟩
  else
    .error (.unsupportedFormat image_name)

/-- `DockerManager.tag_image` (docker_manager.py lines 126-138) builds
`repository = f"{new_domain}/{bucket}"` and `tag = name`, then calls
`image.tag(repository, tag=tag)`.  This function gives the full reference
`repository:tag` that the docker engine records for the image. -/
def tag_image_applied_reference (new_domain bucket name : String) : String :=
  new_domain ++ "/" ++ bucket ++ ":" ++ name

/-- One decoded status record of the engine's push stream: a JSON object
that may carry an `error` key and/or a `status` key (`'error' in line`,
`'status' in line`). -/
structure PushRecord where
  error : Option String
  status : Option String
deriving DecidableEq, Repr

/-- The record-consuming loop of `DockerManager.push_image_async`
(docker_manager.py lines 165-187):

```python
for line in push_result:
    if 'error' in line:
        return False
    elif progress_callback and 'status' in line:
        await progress_callback(line['status'])
return True
```

Returns the success flag, the arguments of the callback invocations in
order, and the records actually examined by the loop.  `cb` is whether a
`progress_callback` was supplied (`progress_callback` truthiness). -/
def push_consume (cb : Bool) : List PushRecord → Bool × List String × List PushRecord
  | [] => (true, [], [])
  | line :: rest =>
    if line.error.isSome then
      (false, [], [line])
    else
      let r := push_consume cb rest
      match cb, line.status with
      | true, some s => (r.1, s :: r.2.1, line :: r.2.2)
      | _, _ => (r.1, r.2.1, line :: r.2.2)

/-- `DockerManager.push_image_async`: acquires the stream from the engine
(an `Except.error` models an exception from `client.images.push`, which the
surrounding `try` catches and turns into `False`), then runs the consuming
loop.  Returns the success flag and the callback invocations. -/
def push_image_async (cb : Bool) (stream : Except String (List PushRecord)) :
    Bool × List String :=
  match stream with
  | .error _ => (false, [])
  | .ok lines => ((push_consume cb lines).1, (push_consume cb lines).2.1)

/-- A pulled image handle: `client.images.pull` returns an object whose
`short_id` the pipeline reports. -/
structure Image where
  short_id : String
deriving DecidableEq, Repr

/-- One engine call made by the pipeline, with the arguments the pipeline
passes.  `tagCall dom b n` records `DockerManager.tag_image_async(image,
dom, b, n)` where `b` lands in `tag_image`'s `bucket` parameter and `n` in
its `name` parameter. -/
inductive Call where
  | pull (source : String)
  | tagCall (new_domain bucket name : String)
  | push (target : String)
deriving DecidableEq, Repr

/-- The external container engine, as the pipeline observes it:
the outcome of a pull, the outcome of a tag (an `Except.error` models an
exception escaping `tag_image_async`, `.ok b` its boolean return), and the
status stream a push yields. -/
structure Engine where
  pullResult : String → Except String Image
  tagResult : String → String → String → Except String Bool
  pushStream : String → Except String (List PushRecord)

/-- The outcome of one pipeline run: the boolean returned by
`process_docker_image`, the progress events it emitted (message, progress)
in order, and the engine calls it made in order. -/
structure RunResult where
  success : Bool
  events : List (String × Nat)
  calls : List Call
deriving DecidableEq, Repr

/-- `process_docker_image` from `src/src/main.py` (lines 107-179): parse,
then pull, then tag, then push, emitting progress events and returning
`False` on the first failing stage.  The tag stage is called as in the
source: `DockerManager.tag_image_async(image, new_domain, name, tag)` —
the parsed repository name and tag are passed as `tag_image`'s `bucket`
and `name` arguments. -/
def process_docker_image (eng : Engine) (image_name new_domain : String) : RunResult :=
  match parse_image_name image_name with
  | .error e => ⟨false, [("错误：" ++ parseErrorMessage e, 0)], []⟩
  | .ok ref =>
    let source := build_source_image_name ref.registry ref.bucket ref.name ref.tag
    let target := build_target_image_name new_domain ref.bucket ref.name ref.tag
    let ev0 := [("开始处理镜像: " ++ source ++ " -> " ++ target, 10),
                ("正在拉取Docker镜像...", 20)]
    match eng.pullResult source with
    | .error e => ⟨false, ev0 ++ [("拉取镜像失败: " ++ e, 0)], [.pull source]⟩
    | .ok img =>
      let ev1 := ev0 ++ [("镜像拉取成功: " ++ img.short_id, 40), ("正在重标签镜像...", 60)]
      match eng.tagResult new_domain ref.name ref.tag with
      | .error e =>
        ⟨false, ev1 ++ [("重标签失败: " ++ e, 0)],
          [.pull source, .tagCall new_domain ref.name ref.tag]⟩
      | .ok false =>
        ⟨false, ev1 ++ [("重标签失败", 0)],
          [.pull source, .tagCall new_domain ref.name ref.tag]⟩
      | .ok true =>
        let ev2 := ev1 ++ [("镜像重标签成功", 80), ("正在推送镜像到新地址...", 90)]
        let calls := [Call.pull source, Call.tagCall new_domain ref.name ref.tag,
                      Call.push target]
        let pushed := push_image_async true (eng.pushStream target)
        let pushEvents := pushed.2.map (fun s => ("推送状态: " ++ s, 95))
        if pushed.1 then
          ⟨true, ev2 ++ pushEvents ++ [("镜像处理完成！已推送到: " ++ target, 100)], calls⟩
        else
          ⟨false, ev2 ++ pushEvents ++ [("推送镜像失败", 0)], calls⟩

/-- Whether a recorded engine call is a tag call. -/
def Call.isTag : Call → Bool
  | .tagCall _ _ _ => true
  | _ => false

/-- Whether a recorded engine call is a push call. -/
def Call.isPush : Call → Bool
  | .push _ => true
  | _ => false

/-- One websocket observer as `notify_progress` sees it: whether sending on
it raises, and the events it has received. -/
structure Conn where
  broken : Bool
  received : List (String × Nat)
deriving DecidableEq, Repr

/-- `connection.send_text(...)`: delivery to one observer, which either
raises (closed channel) or appends the event to what the observer has
received. -/
def send_text (c : Conn) (e : String × Nat) : Except String Conn :=
  if c.broken then .error "connection closed" else .ok ⟨c.broken, c.received ++ [e]⟩

/-- `notify_progress` from `src/src/main.py` (lines 32-44): sends the event
to every connection with `asyncio.gather(..., return_exceptions=True)`; a
per-connection exception is collected, not raised, so the function itself
returns normally and every connection is attempted.  (With no connections
the guard `if active_connections` skips the send; the result is the same
empty list.) -/
def notify_progress (conns : List Conn) (e : String × Nat) :
    Except String (List Conn) :=
  .ok (conns.map fun c =>
    match send_text c e with
    | .ok c2 => c2
    | .error _ => c)

/-- Python `list.remove(x)`: removes the first occurrence of `x`, raising
`ValueError` when `x` is not in the list.  `websocket_endpoint`
(`src/src/main.py` lines 181-192) unsubscribes an observer with
`active_connections.remove(websocket)`; observers are modelled by their
identity. -/
def unsubscribe (conns : List Nat) (ws : Nat) : Except String (List Nat) :=
  if ws ∈ conns then .ok (conns.erase ws) else .error "list.remove(x): x not in list"

/-- A concrete engine whose pull fails: used to exercise the pipeline. -/
def pullFailEngine : Engine :=
  ⟨fun _ => .error "connection refused", fun _ _ _ => .ok true, fun _ => .ok []⟩

/-- A concrete engine where every stage succeeds and the push stream is
empty: used to exercise the pipeline. -/
def okEngine : Engine :=
  ⟨fun _ => .ok ⟨"sha256:abc"⟩, fun _ _ _ => .ok true, fun _ => .ok []⟩

/-- A concrete engine whose tag call reports failure. -/
def tagFailEngine : Engine :=
  ⟨fun _ => .ok ⟨"sha256:abc"⟩, fun _ _ _ => .ok false, fun _ => .ok []⟩

/-! ## Helper lemmas -/

theorem takeWhile_append_of_all {α : Type} (p : α → Bool) (l l' : List α)
    (h : ∀ x ∈ l, p x) : (l ++ l').takeWhile p = l ++ l'.takeWhile p := by
  induction l with
  | nil => rfl
  | cons a t ih =>
    have ha := h a (List.mem_cons_self a t)
    simp [List.takeWhile_cons, ha, ih (fun x hx => h x (List.mem_cons_of_mem a hx))]

theorem dropWhile_append_of_all {α : Type} (p : α → Bool) (l l' : List α)
    (h : ∀ x ∈ l, p x) : (l ++ l').dropWhile p = l'.dropWhile p := by
  induction l with
  | nil => rfl
  | cons a t ih =>
    have ha := h a (List.mem_cons_self a t)
    simp [List.dropWhile_cons, ha, ih (fun x hx => h x (List.mem_cons_of_mem a hx))]

theorem takeWhile_append_of_not {α : Type} (p : α → Bool) (l l' : List α) (a : α)
    (ha : a ∈ l) (hpa : p a = false) : (l ++ l').takeWhile p = l.takeWhile p := by
  induction l with
  | nil => cases ha
  | cons b t ih =>
    by_cases hb : p b = true
    · have hat : a ∈ t := by
        rcases List.mem_cons.mp ha with h1 | h1
        · subst h1; rw [hb] at hpa; cases hpa
        · exact h1
      simp [List.takeWhile_cons, hb, ih hat]
    · simp [List.takeWhile_cons, hb]

theorem dropWhile_append_of_not {α : Type} (p : α → Bool) (l l' : List α) (a : α)
    (ha : a ∈ l) (hpa : p a = false) : (l ++ l').dropWhile p = l.dropWhile p ++ l' := by
  induction l with
  | nil => cases ha
  | cons b t ih =>
    by_cases hb : p b = true
    · have hat : a ∈ t := by
        rcases List.mem_cons.mp ha with h1 | h1
        · subst h1; rw [hb] at hpa; cases hpa
        · exact h1
      simp [List.dropWhile_cons, hb, ih hat]
    · simp [List.dropWhile_cons, hb]

theorem dropWhile_ne_nil_of_not {α : Type} (p : α → Bool) (l : List α) (a : α)
    (ha : a ∈ l) (hpa : p a = false) : l.dropWhile p ≠ [] := by
  induction l with
  | nil => cases ha
  | cons b t ih =>
    by_cases hb : p b = true
    · have hat : a ∈ t := by
        rcases List.mem_cons.mp ha with h1 | h1
        · subst h1; rw [hb] at hpa; cases hpa
        · exact h1
      simpa [List.dropWhile_cons, hb] using ih hat
    · simp [List.dropWhile_cons, hb]

theorem drop_one_append {α : Type} (l l' : List α) (h : l ≠ []) :
    (l ++ l').drop 1 = l.drop 1 ++ l' := by
  cases l with
  | nil => exact absurd rfl h
  | cons a t => simp

theorem notColon_colon : notColon ':' = false := by decide

theorem notColon_of_ne {c : Char} (h : c ≠ ':') : notColon c = true := by
  simp [notColon, h]

theorem lastColonSplit_of_not_mem (cs : List Char) (h : ':' ∉ cs) :
    lastColonSplit cs = none := by
  induction cs with
  | nil => rfl
  | cons c t ih =>
    have hc : ¬ c = ':' := fun hh => h (by rw [hh]; exact List.mem_cons_self _ _)
    have ht : ':' ∉ t := fun hh => h (List.mem_cons_of_mem _ hh)
    simp [lastColonSplit, ih ht, hc]

theorem lastColonSplit_of_mem (cs : List Char) (h : ':' ∈ cs) :
    lastColonSplit cs = some (rsplitLastColon cs) := by
  induction cs with
  | nil => cases h
  | cons c t ih =>
    by_cases ht : ':' ∈ t
    · rw [lastColonSplit, ih ht]
      have hmem : ':' ∈ t.reverse := by simpa using ht
      have htake : ((c :: t).reverse.takeWhile notColon) = t.reverse.takeWhile notColon := by
        rw [List.reverse_cons]
        exact takeWhile_append_of_not notColon t.reverse [c] ':' hmem notColon_colon
      have hdropw : ((c :: t).reverse.dropWhile notColon)
          = t.reverse.dropWhile notColon ++ [c] := by
        rw [List.reverse_cons]
        exact dropWhile_append_of_not notColon t.reverse [c] ':' hmem notColon_colon
      have hne : t.reverse.dropWhile notColon ≠ [] :=
        dropWhile_ne_nil_of_not notColon t.reverse ':' hmem notColon_colon
      simp only [rsplitLastColon, htake, hdropw]
      rw [drop_one_append _ _ hne]
      simp
    · have hc : c = ':' := by
        rcases List.mem_cons.mp h with h1 | h1
        · exact h1.symm
        · exact absurd h1 ht
      subst hc
      rw [lastColonSplit, lastColonSplit_of_not_mem t ht]
      have hall : ∀ x ∈ t.reverse, notColon x = true := by
        intro x hx
        exact notColon_of_ne (fun hh => ht (by rw [← hh]; simpa using hx))
      simp only [rsplitLastColon, List.reverse_cons]
      rw [takeWhile_append_of_all notColon t.reverse [':'] hall,
        dropWhile_append_of_all notColon t.reverse [':'] hall]
      simp [List.dropWhile, List.takeWhile, notColon]

/-! ## Claim C2 -/

/-- C2: for every input string, `parse_image_name` first splits off the tag
at the last colon (tag defaults to "latest" when no colon is present), then
splits the remainder on '/'; 1 segment yields (default hub "docker.io",
"library", segment, tag); 2 segments yield ("docker.io", "library", second,
tag) when the first segment is literally "library" and otherwise (first,
"library", second, tag); 3 segments are taken positionally as (registry,
bucket, repository, tag); 4 or more segments fail with an UnsupportedFormat
error.  Stated as: the code's parser agrees with `parseSpec`, the parser
written from the claim's words, on every input. -/
theorem parse_image_name_case_analysis (x : String) : parse_image_name x = parseSpec x := by
  by_cases h : ':' ∈ x.toList
  · have hc : x.toList.contains ':' = true := List.elem_eq_true_of_mem h
    simp only [parse_image_name, parseSpec, hc, lastColonSplit_of_mem _ h, if_true]
    generalize rsplitLastColon x.toList = pr
    obtain ⟨nameL, tagL⟩ := pr
    simp only []
    generalize nameL.splitOn '/' = parts
    rcases parts with _ | ⟨a, _ | ⟨b, _ | ⟨c, _ | ⟨d, r⟩⟩⟩⟩
    · simp
    · simp
    · by_cases hab : a = "library".toList <;> simp [hab]
    · simp
    · simp only [List.length_cons]
      rw [if_neg (by omega), if_neg (by omega), if_neg (by omega)]
  · have hc : x.toList.contains ':' = false := by simpa using h
    simp only [parse_image_name, parseSpec, hc, lastColonSplit_of_not_mem _ h, if_false,
      Bool.false_eq_true]
    generalize x.toList.splitOn '/' = parts
    rcases parts with _ | ⟨a, _ | ⟨b, _ | ⟨c, _ | ⟨d, r⟩⟩⟩⟩
    · simp
    · simp
    · by_cases hab : a = "library".toList <;> simp [hab]
    · simp
    · simp only [List.length_cons]
      rw [if_neg (by omega), if_neg (by omega), if_neg (by omega)]

/-! ## Claim C1 -/

/-- C1: round-trip law.  For every reference string `x` in minimal canonical
form (that is, `x` is exactly the string `build_source_image_name` rebuilds
from its own parse) that `parse_image_name` accepts, re-parsing the string
produced by `build_source_image_name` applied to the parse of `x` yields an
`ImageReference` structurally equal to the parse of `x`. -/
theorem parse_build_source_roundtrip (x : String) (ref : ImageReference)
    (h1 : parse_image_name x = .ok ref)
    (h2 : build_source_image_name ref.registry ref.bucket ref.name ref.tag = x) :
    parse_image_name (build_source_image_name ref.registry ref.bucket ref.name ref.tag)
      = .ok ref := by
  rw [h2]
  exact h1

/-- Witness for C1 at the canonical input "nginx:latest". -/
theorem parse_build_source_roundtrip_witness :
    parse_image_name (build_source_image_name "docker.io" "library" "nginx" "latest")
      = .ok ⟨"docker.io", "library", "nginx", "latest"⟩ :=
  parse_build_source_roundtrip "nginx:latest" ⟨"docker.io", "library", "nginx", "latest"⟩
    (by decide) (by decide)

/-! ## Claim C3 -/

/-- C3: the pipeline's Tagging stage does NOT call the Tag operation with
the resolved target domain, the parsed bucket and the parsed repository
name.  On the run for "nginx:latest" with target domain "localhost:5000"
it calls `tag_image_async(image, "localhost:5000", "nginx", "latest")` —
the parsed repository name "nginx" lands in `tag_image`'s `bucket`
parameter and the parsed tag "latest" in its `name` parameter (the parsed
bucket "library" is never passed), so the reference the engine records,
"localhost:5000/nginx:latest", differs from the target reference
"localhost:5000/library/nginx:latest" that the Push stage uses. -/
theorem pipeline_tag_call_mismatch :
    (process_docker_image okEngine "nginx:latest" "localhost:5000").calls
      = [.pull "nginx:latest", .tagCall "localhost:5000" "nginx" "latest",
         .push "localhost:5000/library/nginx:latest"] ∧
    parse_image_name "nginx:latest" = .ok ⟨"docker.io", "library", "nginx", "latest"⟩ ∧
    tag_image_applied_reference "localhost:5000" "nginx" "latest"
      = "localhost:5000/nginx:latest" ∧
    tag_image_applied_reference "localhost:5000" "nginx" "latest"
      ≠ build_target_image_name "localhost:5000" "library" "nginx" "latest" := by
  decide

/-! ## Claim C4 -/

/-- C4, counterexample: `parse_image_name ""` does not fail at all — it
returns an `ImageReference` whose repository field is the empty string,
contradicting the claim that it fails with an EmptyName error. -/
theorem parse_empty_accepted :
    parse_image_name "" = .ok ⟨"docker.io", "library", "", "latest"⟩ := by
  decide

/-- C4, amended: `parse_image_name` performs no emptiness check (its only
error is UnsupportedFormat); the empty string parses to
("docker.io", "library", "", "latest"), and an input whose repository
segment is empty likewise parses to a reference with an empty repository
field. -/
theorem parse_empty_no_emptyName_error :
    parse_image_name "" = .ok ⟨"docker.io", "library", "", "latest"⟩ ∧
    parse_image_name "docker.io/library/:1.0" = .ok ⟨"docker.io", "library", "", "1.0"⟩ := by
  decide

/-! ## Claim C8 -/

/-- C8: `build_target_image_name` always emits the fully explicit form
`targetDomain/bucket/repository:tag`; when the bucket argument is empty or
equal to "library" it still emits the literal segment "library"; and
`build_target_image_name "localhost:5000" "library" "nginx" "latest"` is
`"localhost:5000/library/nginx:latest"`. -/
theorem build_target_always_explicit (d b n t : String) :
    ((b = "" ∨ b = "library") →
      build_target_image_name d b n t = d ++ "/library/" ++ n ++ ":" ++ t) ∧
    (¬(b = "" ∨ b = "library") →
      build_target_image_name d b n t = d ++ "/" ++ b ++ "/" ++ n ++ ":" ++ t) ∧
    build_target_image_name "localhost:5000" "library" "nginx" "latest"
      = "localhost:5000/library/nginx:latest" := by
  refine ⟨?_, ?_, by decide⟩
  · intro hb
    simp [build_target_image_name, hb]
  · intro hb
    simp [build_target_image_name, hb]

/-- Witness for C8 at concrete buckets "" and "proj". -/
theorem build_target_always_explicit_witness :
    build_target_image_name "quay.io" "" "nginx" "1.0"
      = "quay.io" ++ "/library/" ++ "nginx" ++ ":" ++ "1.0" ∧
    build_target_image_name "quay.io" "proj" "nginx" "1.0"
      = "quay.io" ++ "/" ++ "proj" ++ "/" ++ "nginx" ++ ":" ++ "1.0" :=
  ⟨(build_target_always_explicit "quay.io" "" "nginx" "1.0").1 (Or.inl rfl),
   (build_target_always_explicit "quay.io" "proj" "nginx" "1.0").2.1 (by decide)⟩

/-! ## Claim C9 -/

/-- C9, counterexample: unsubscribing an observer that is not currently
subscribed is not a no-op: `active_connections.remove(websocket)` raises a
`ValueError`, here at the empty observer set and observer `0`. -/
theorem unsubscribe_absent_raises :
    unsubscribe [] 0 = .error "list.remove(x): x not in list" := by
  decide

/-- C9, amended: `unsubscribe` removes the first occurrence of a subscribed
observer and returns normally, but removing an observer that is not
currently subscribed raises a `ValueError` (it is not idempotent). -/
theorem unsubscribe_behavior (l : List Nat) (a : Nat) :
    (a ∉ l → unsubscribe l a = .error "list.remove(x): x not in list") ∧
    (a ∈ l → unsubscribe l a = .ok (l.erase a)) := by
  constructor
  · intro h
    simp [unsubscribe, h]
  · intro h
    simp [unsubscribe, h]

/-- Witness for C9's amended claim at the set `[2, 3]`. -/
theorem unsubscribe_behavior_witness :
    unsubscribe [2, 3] 5 = .error "list.remove(x): x not in list" ∧
    unsubscribe [2, 3] 2 = .ok ([2, 3].erase 2) :=
  ⟨(unsubscribe_behavior [2, 3] 5).1 (by decide),
   (unsubscribe_behavior [2, 3] 2).2 (by decide)⟩

/-! ## Claim C10 -/

/-- C10: because the tag is split at the last colon before the path is
split on '/', the input "localhost:5000/nginx" — whose only colon lies in a
registry-with-port and which has no explicit tag — is misdecomposed: it
parses to ("docker.io", "library", "localhost", "5000/nginx"), a tag
containing a '/' character, instead of registry "localhost:5000" with tag
"latest". -/
theorem parse_registry_port_misdecomposed :
    parse_image_name "localhost:5000/nginx"
      = .ok ⟨"docker.io", "library", "localhost", "5000/nginx"⟩ ∧
    "5000/nginx".toList.contains '/' = true ∧
    parse_image_name "localhost:5000/nginx"
      ≠ .ok ⟨"localhost:5000", "library", "nginx", "latest"⟩ := by
  decide

/-! ## Claim C5 -/

/-- C5: the pipeline halts on first failure.  If parsing fails, the run
returns success = false with no engine call; if the pull fails, the run
returns success = false with exactly the pull call and zero tag and push
calls; if the tag stage fails (returned `False` or raised), the run returns
success = false with zero push calls; if the push stage fails, the run
returns success = false. -/
theorem pipeline_halts_on_first_failure (eng : Engine) (image_name new_domain : String) :
    (∀ e, parse_image_name image_name = .error e →
      (process_docker_image eng image_name new_domain).success = false ∧
      (process_docker_image eng image_name new_domain).calls = []) ∧
    (∀ ref e, parse_image_name image_name = .ok ref →
      eng.pullResult (build_source_image_name ref.registry ref.bucket ref.name ref.tag)
        = .error e →
      (process_docker_image eng image_name new_domain).success = false ∧
      (process_docker_image eng image_name new_domain).calls
        = [.pull (build_source_image_name ref.registry ref.bucket ref.name ref.tag)] ∧
      (process_docker_image eng image_name new_domain).calls.countP (·.isTag) = 0 ∧
      (process_docker_image eng image_name new_domain).calls.countP (·.isPush) = 0) ∧
    (∀ ref img, parse_image_name image_name = .ok ref →
      eng.pullResult (build_source_image_name ref.registry ref.bucket ref.name ref.tag)
        = .ok img →
      (eng.tagResult new_domain ref.name ref.tag = .ok false ∨
        ∃ e, eng.tagResult new_domain ref.name ref.tag = .error e) →
      (process_docker_image eng image_name new_domain).success = false ∧
      (process_docker_image eng image_name new_domain).calls.countP (·.isPush) = 0) ∧
    (∀ ref img, parse_image_name image_name = .ok ref →
      eng.pullResult (build_source_image_name ref.registry ref.bucket ref.name ref.tag)
        = .ok img →
      eng.tagResult new_domain ref.name ref.tag = .ok true →
      (push_image_async true (eng.pushStream
        (build_target_image_name new_domain ref.bucket ref.name ref.tag))).1 = false →
      (process_docker_image eng image_name new_domain).success = false) := by
  refine ⟨?_, ?_, ?_, ?_⟩
  · intro e hparse
    simp [process_docker_image, hparse]
  · intro ref e hparse hpull
    simp [process_docker_image, hparse, hpull, List.countP_cons, List.countP_nil,
      Call.isTag, Call.isPush]
  · intro ref img hparse hpull htag
    rcases htag with htag | ⟨e, htag⟩ <;>
      simp [process_docker_image, hparse, hpull, htag, List.countP_cons, List.countP_nil,
        Call.isPush]
  · intro ref img hparse hpull htag hpush
    simp [process_docker_image, hparse, hpull, htag, hpush]

/-- Witness for C5: a run over an engine whose pull fails, on
"nginx:latest" → "localhost:5000", produces one failed outcome and zero
tag and push calls. -/
theorem pipeline_halts_on_first_failure_witness :
    (process_docker_image pullFailEngine "nginx:latest" "localhost:5000").success = false ∧
    (process_docker_image pullFailEngine "nginx:latest" "localhost:5000").calls
      = [.pull (build_source_image_name "docker.io" "library" "nginx" "latest")] ∧
    (process_docker_image pullFailEngine "nginx:latest" "localhost:5000").calls.countP
      (·.isTag) = 0 ∧
    (process_docker_image pullFailEngine "nginx:latest" "localhost:5000").calls.countP
      (·.isPush) = 0 :=
  (pipeline_halts_on_first_failure pullFailEngine "nginx:latest" "localhost:5000").2.1
    ⟨"docker.io", "library", "nginx", "latest"⟩ "connection refused" (by decide) (by decide)

/-! ## Claim C6 -/

/-- C6: the push loop consumes the engine's status records in order; at the
first record carrying an error field the operation fails immediately — the
remaining records are never examined and the callback is not invoked for
that record; every earlier record carrying a status field triggered exactly
one callback invocation with that status value, in order. -/
theorem push_consume_error_aborts :
    (∀ (pre post : List PushRecord) (line : PushRecord),
      (∀ r ∈ pre, r.error = none) → line.error.isSome →
      push_consume true (pre ++ line :: post)
        = (false, pre.filterMap (·.status), pre ++ [line])) ∧
    (∀ lines : List PushRecord, (∀ r ∈ lines, r.error = none) →
      push_consume true lines = (true, lines.filterMap (·.status), lines)) := by
  constructor
  · intro pre
    induction pre with
    | nil =>
      intro post line _ hline
      simp [push_consume, hline]
    | cons r rest ih =>
      intro post line hpre hline
      have hr : r.error = none := hpre r (List.mem_cons_self _ _)
      have ihh := ih post line (fun a ha => hpre a (List.mem_cons_of_mem _ ha)) hline
      cases hs : r.status with
      | some s => simp [push_consume, hr, hs, ihh]
      | none => simp [push_consume, hr, hs, ihh]
  · intro lines
    induction lines with
    | nil =>
      intro _
      simp [push_consume]
    | cons r rest ih =>
      intro hl
      have hr : r.error = none := hl r (List.mem_cons_self _ _)
      have ihh := ih (fun a ha => hl a (List.mem_cons_of_mem _ ha))
      cases hs : r.status with
      | some s => simp [push_consume, hr, hs, ihh]
      | none => simp [push_consume, hr, hs, ihh]

/-- Witness for C6: a stream with one status record, then an error record,
then a further status record fails with only the first status forwarded and
the trailing record unexamined; an error-free stream succeeds forwarding
each status once. -/
theorem push_consume_error_aborts_witness :
    push_consume true [⟨none, some "pushing"⟩, ⟨some "denied", none⟩, ⟨none, some "later"⟩]
      = (false, ["pushing"], [⟨none, some "pushing"⟩, ⟨some "denied", none⟩]) ∧
    push_consume true [⟨none, some "a"⟩, ⟨none, none⟩, ⟨none, some "b"⟩]
      = (true, ["a", "b"], [⟨none, some "a"⟩, ⟨none, none⟩, ⟨none, some "b"⟩]) := by
  constructor
  · have h := push_consume_error_aborts.1 [⟨none, some "pushing"⟩] [⟨none, some "later"⟩]
      ⟨some "denied", none⟩ (by decide) (by decide)
    simpa using h
  · have h := push_consume_error_aborts.2 [⟨none, some "a"⟩, ⟨none, none⟩, ⟨none, some "b"⟩]
      (by decide)
    simpa using h

/-! ## Claim C7 -/

/-- C7: `notify_progress` returns normally (a per-observer delivery failure
is swallowed and never raised to the caller), and it delivers the event to
every currently subscribed observer: each non-broken observer receives the
event appended to its received list, and a broken observer leaves all
others unaffected. -/
theorem publish_delivers_to_all (conns : List Conn) (e : String × Nat) :
    ∃ conns2, notify_progress conns e = .ok conns2 ∧
      List.Forall₂ (fun c c2 =>
        (c.broken = false → c2 = ⟨false, c.received ++ [e]⟩) ∧
        (c.broken = true → c2 = c)) conns conns2 := by
  refine ⟨_, rfl, ?_⟩
  induction conns with
  | nil => constructor
  | cons c t ih =>
    rw [List.map_cons]
    constructor
    · constructor
      · intro hb
        simp [send_text, hb]
      · intro hb
        simp [send_text, hb]
    · exact ih

/-- Witness for C7: publishing to three observers of which the middle one
throws on delivery returns normally and delivers to the other two. -/
theorem publish_delivers_to_all_witness :
    ∃ conns2,
      notify_progress [⟨false, []⟩, ⟨true, []⟩, ⟨false, []⟩] ("正在拉取Docker镜像...", 20)
        = .ok conns2 ∧
      List.Forall₂ (fun c c2 =>
        (c.broken = false → c2 = ⟨false, c.received ++ [("正在拉取Docker镜像...", 20)]⟩) ∧
        (c.broken = true → c2 = c))
        [⟨false, []⟩, ⟨true, []⟩, ⟨false, []⟩] conns2 :=
  publish_delivers_to_all [⟨false, []⟩, ⟨true, []⟩, ⟨false, []⟩] ("正在拉取Docker镜像...", 20)

end DockerTrans
